import Mathlib

/-!
Shallow embedding of the clipboard daemon `cursor-clip` (Rust), covering the
parts of the code that the verified properties are about:

* `src/shared/data_structures.rs` — clipboard items, previews, the content-type
  classifier, and the IPC message enums together with their serde JSON encoding;
* `src/backend/backend_state.rs` — the shared `BackendState`: the bounded
  history store (`add_clipboard_item`, `get_history`, `get_item_by_id`,
  `clear_history`) and the publish path `set_clipboard_by_id`;
* `src/backend/wayland_clipboard.rs` — the protocol event handlers for
  `DataOffer`, `Offer`, `Selection` and `Cancelled` events, and the payload
  read helper `process_all_data_formats`.

Modelling conventions: Rust `u64` counters and ids become `Nat` (the daemon
never approaches 2^64 insertions, so wraparound is not modelled); byte buffers
(`Bytes`) become `List Nat`; `IndexMap<String, Bytes>` becomes an association
list preserving insertion order with first-match lookup; Wayland proxy objects
(offers, sources) are identified by their numeric object ids, and the calls the
handlers make on them (`destroy`, `receive`, `create_data_source`,
`set_selection`) are recorded as an explicit action trace. OS-level pipe I/O is
abstracted by a `fetch` oracle returning `Option` (`none` models a pipe
creation or read failure, which the code logs and skips). Wall-clock timestamps
are an explicit `now` parameter.
-/

namespace CursorClip

/-! ### `src/shared/data_structures.rs` -/

/-- Rust enum `ClipboardContentType`. -/
inductive ClipboardContentType where
  | Text
  | Url
  | Code
  | Password
  | File
  | Image
  | Other
deriving Repr, DecidableEq

/-- `pat` is a prefix of `s` (character lists; the Rust patterns are ASCII, so
byte-level `str::starts_with` agrees with character-level comparison). -/
def listLeads : List Char → List Char → Bool
  | [], _ => true
  | _ :: _, [] => false
  | p :: ps, c :: cs => p == c && listLeads ps cs

/-- Model of Rust `str::starts_with(pat)`. -/
def strStarts (s pat : String) : Bool :=
  listLeads pat.toList s.toList

/-- `pat` occurs as a contiguous sublist of `s`. -/
def listHasSub (pat : List Char) : List Char → Bool
  | [] => pat.isEmpty
  | c :: cs => listLeads pat (c :: cs) || listHasSub pat cs

/-- Model of Rust `str::contains(pat)` for a string pattern (substring search;
for valid UTF-8 a byte-level match always falls on character boundaries, so the
character-level search agrees with Rust's byte-level one). -/
def strContains (s pat : String) : Bool :=
  listHasSub pat.toList s.toList

/-- The constant `PASSWORD_SPECIALS` from `type_from_preview`. -/
def PASSWORD_SPECIALS : String := "!@#$%^&*()-_=+[]\x7b\x7d;:,.<>?/\\|`~"

/-- `ClipboardContentType::type_from_preview` from
`src/shared/data_structures.rs` lines 78–91: priority Url, Code, File,
Password, else Text. `String.utf8ByteSize` models Rust's byte-length
`str::len`. -/
def ClipboardContentType.type_from_preview (content : String) : ClipboardContentType :=
  if strStarts content "http://" || strStarts content "https://" then
    .Url
  else if strContains content "fn " || strContains content "impl " || strContains content "struct " then
    .Code
  else if content.toList.contains '/' && !(content.toList.contains ' ') && content.utf8ByteSize < 256 then
    .File
  else if !content.toList.isEmpty && content.utf8ByteSize < 50 && !(content.toList.contains ' ')
      && content.toList.any (fun c => PASSWORD_SPECIALS.toList.contains c) then
    .Password
  else
    .Text

/-- Byte buffer (Rust `Bytes`). -/
abbrev ByteBuf := List Nat

/-- Ordered MIME-type→bytes mapping (Rust `IndexMap<String, Bytes>`),
as an association list in insertion order. -/
abbrev MimeMap := List (String × ByteBuf)

/-- `IndexMap::get`: first-match lookup. -/
def mimeMapGet (m : MimeMap) (k : String) : Option ByteBuf :=
  match m.find? (fun p => p.1 == k) with
  | some p => some p.2
  | none => none

/-- `IndexMap::insert`: update in place an existing key (keeping its
position), otherwise append at the end. -/
def mimeMapInsert (m : MimeMap) (k : String) (v : ByteBuf) : MimeMap :=
  if m.any (fun p => p.1 == k) then
    m.map (fun p => if p.1 == k then (k, v) else p)
  else
    m ++ [(k, v)]

/-- Rust struct `ClipboardItem`. -/
structure ClipboardItem where
  item_id : Nat
  content_preview : String
  content_type : ClipboardContentType
  timestamp : Nat
  mime_data : MimeMap
deriving Repr, DecidableEq

/-- Rust struct `ClipboardItemPreview` (the projection sent over IPC). -/
structure ClipboardItemPreview where
  item_id : Nat
  content_preview : String
  content_type : ClipboardContentType
  timestamp : Nat
deriving Repr, DecidableEq

/-- `impl From<&ClipboardItem> for ClipboardItemPreview`. -/
def ClipboardItemPreview.ofItem (full : ClipboardItem) : ClipboardItemPreview :=
  { item_id := full.item_id
    content_preview := full.content_preview
    content_type := full.content_type
    timestamp := full.timestamp }

/-! ### `src/backend/backend_state.rs` -/

/-- Wayland protocol object id (`wayland_client::backend::ObjectId`),
modelled as a number. -/
abbrev ObjectId := Nat

/-- The shared daemon state, Rust struct `BackendState`
(`src/backend/backend_state.rs` lines 18–50). The Wayland handle fields
(`data_control_manager`, `data_control_device`, `qh`, `seat`, `connection`)
are modelled by their presence only (`Option Unit`): the handlers never
inspect them beyond `Some`/`None`, and the calls made through them appear in
the action traces instead. -/
structure BackendState where
  history : List ClipboardItem
  id_for_next_entry : Nat
  data_control_manager : Option Unit
  data_control_device : Option Unit
  qh : Option Unit
  seat : Option Unit
  connection : Option Unit
  mime_type_offers : List (ObjectId × List String)
  current_data_offer : Option ObjectId
  current_source_object : Option ObjectId
  current_source_entry_id : Option Nat
  suppress_next_selection_read : Bool
  monitor_only : Bool
deriving Repr, DecidableEq

/-- `BackendState::new`. -/
def BackendState.new : BackendState where
  history := []
  id_for_next_entry := 1
  data_control_manager := none
  data_control_device := none
  qh := none
  seat := none
  connection := none
  mime_type_offers := []
  current_data_offer := none
  current_source_object := none
  current_source_entry_id := none
  suppress_next_selection_read := false
  monitor_only := false

/-- `HashMap::get` on the offer-tracking table. -/
def offersGet (m : List (ObjectId × List String)) (k : ObjectId) : Option (List String) :=
  match m.find? (fun p => p.1 == k) with
  | some p => some p.2
  | none => none

/-- `HashMap::insert` on the offer-tracking table (replace an existing key or
add a new entry). -/
def offersInsert (m : List (ObjectId × List String)) (k : ObjectId) (v : List String) :
    List (ObjectId × List String) :=
  if m.any (fun p => p.1 == k) then
    m.map (fun p => if p.1 == k then (k, v) else p)
  else
    m ++ [(k, v)]

/-- Convert a byte buffer to a Lean `ByteArray` and attempt UTF-8 decoding
(Rust `std::str::from_utf8`). -/
def bytesUtf8? (b : ByteBuf) : Option String :=
  String.fromUTF8? ⟨(b.map (fun n => UInt8.ofNat n)).toArray⟩

/-- The preview/content-type selection block of `add_clipboard_item`
(`src/backend/backend_state.rs` lines 81–97): `image/png` wins, then
`text/plain;charset=utf-8` (first 200 characters if valid UTF-8, else a
placeholder), else a placeholder built from the first MIME entry, with the
text branches classified by `type_from_preview`.
The `[]` case is unreachable: the caller rejects empty maps first (the Rust
code `unwrap`s the first entry). -/
def previewAndType (mime_content : MimeMap) : String × ClipboardContentType :=
  match mimeMapGet mime_content "image/png" with
  | some png_bytes =>
      ("<image/png " ++ toString png_bytes.length ++ " bytes>", .Image)
  | none =>
      let preview : String :=
        match mimeMapGet mime_content "text/plain;charset=utf-8" with
        | some txt_bytes =>
            match bytesUtf8? txt_bytes with
            | some s => String.mk (s.toList.take 200)
            | none => "<text/plain;charset=utf-8 " ++ toString txt_bytes.length ++ " bytes>"
        | none =>
            match mime_content with
            | [] => ""
            | (mime_name, v) :: _ => "<" ++ mime_name ++ " " ++ toString v.length ++ " bytes>"
      (preview, ClipboardContentType.type_from_preview preview)

/-- `BackendState::add_clipboard_item` (`src/backend/backend_state.rs` lines
77–121): reject empty maps, build the item with the next sequential id,
insert at the front, truncate beyond 100, bump the counter, return the new id.
`now` models `SystemTime::now()`. The best-effort `NewItem` broadcast at the
end touches no `BackendState` field and is not modelled here. -/
def BackendState.add_clipboard_item (s : BackendState) (mime_content : MimeMap) (now : Nat) :
    BackendState × Option Nat :=
  if mime_content.isEmpty then (s, none)
  else
    let pt := previewAndType mime_content
    let item : ClipboardItem :=
      { item_id := s.id_for_next_entry
        content_preview := pt.1
        content_type := pt.2
        timestamp := now
        mime_data := mime_content }
    let history1 := item :: s.history
    let history2 := if history1.length > 100 then history1.take 100 else history1
    let new_id := s.id_for_next_entry
    ({ s with history := history2, id_for_next_entry := s.id_for_next_entry + 1 }, some new_id)

/-- `BackendState::get_history`. -/
def BackendState.get_history (s : BackendState) : List ClipboardItemPreview :=
  s.history.map ClipboardItemPreview.ofItem

/-- `BackendState::get_item_by_id` (linear scan for the id). -/
def BackendState.get_item_by_id (s : BackendState) (id : Nat) : Option ClipboardItem :=
  s.history.find? (fun i => i.item_id == id)

/-- `BackendState::clear_history`: empties the history only. -/
def BackendState.clear_history (s : BackendState) : BackendState :=
  { s with history := [] }

/-- The Wayland calls the handlers perform on protocol objects, recorded as a
trace: destroying a source or an offer, creating a data source advertising a
list of MIME types, installing a source as the selection, and requesting an
offer's payload for one MIME type (`data_offer.receive`). -/
inductive WlAction where
  | destroySource (src : ObjectId)
  | createSource (src : ObjectId) (mimes : List String)
  | setSelection (src : ObjectId)
  | destroyOffer (offer : ObjectId)
  | readPayload (offer : ObjectId) (mime : String)
deriving Repr, DecidableEq

/-- `BackendState::set_clipboard_by_id` (`src/backend/backend_state.rs` lines
135–167): look the item up (error naming the id if absent), require the
Wayland handles (error if any is missing), destroy any previously held source,
create a fresh source offering every stored MIME type, install it as the
selection, record ownership and set the suppression flag. `freshSource` is the
object id the compositor assigns to the newly created source. The final
connection flush is log-only and changes no state. -/
def BackendState.set_clipboard_by_id (s : BackendState) (entry_id : Nat) (freshSource : ObjectId) :
    BackendState × Except String Unit × List WlAction :=
  match s.get_item_by_id entry_id with
  | none => (s, .error ("No clipboard item found with ID: " ++ toString entry_id), [])
  | some item =>
      match s.data_control_manager, s.data_control_device, s.qh with
      | some _, some _, some _ =>
          let destroyed : List WlAction :=
            match s.current_source_object with
            | some prev => [.destroySource prev]
            | none => []
          let s1 : BackendState :=
            { s with current_source_object := some freshSource
                     current_source_entry_id := some entry_id
                     suppress_next_selection_read := true }
          (s1, .ok (),
            destroyed ++ [.createSource freshSource (item.mime_data.map Prod.fst),
                          .setSelection freshSource])
      | _, _, _ => (s, .error "Wayland clipboard objects not available yet", [])

/-! ### `src/backend/wayland_clipboard.rs` — dispatch handlers -/

/-- The `DataOffer` arm of the device dispatch (lines 132–136): open a fresh
empty MIME list for the announced offer id. -/
def handleDataOffer (s : BackendState) (object_id : ObjectId) : BackendState :=
  { s with mime_type_offers := offersInsert s.mime_type_offers object_id [] }

/-- The `Offer` arm of the offer dispatch (lines 193–200): append the
announced MIME type to the offer's list if the offer is tracked, filtering out
video types. -/
def handleOfferMime (s : BackendState) (object_id : ObjectId) (mime_type : String) : BackendState :=
  match offersGet s.mime_type_offers object_id with
  | none => s
  | some mime_list =>
      if !(strStarts mime_type "video") then
        { s with mime_type_offers :=
            offersInsert s.mime_type_offers object_id (mime_list ++ [mime_type]) }
      else s

/-- `process_all_data_formats` (lines 289–335): for each announced MIME type,
request the offer's payload over a pipe and read it to completion (`fetch`
returns `none` on a pipe-creation/read failure, which is logged and skipped;
empty payloads are dropped); then, if anything was read, insert it into the
history and — unless in monitor-only mode or suppressed — take ownership via
`set_clipboard_by_id` (whose error, if any, is only logged). -/
def process_all_data_formats (fetch : ObjectId → String → Option ByteBuf) (now : Nat)
    (freshSource : ObjectId) (offer : ObjectId) (mime_types : List String) (s : BackendState) :
    BackendState × List WlAction :=
  if mime_types.isEmpty then (s, [])
  else
    let step := fun (acc : MimeMap × List WlAction) (mime : String) =>
      match fetch offer mime with
      | none => acc
      | some buf =>
          let acts := acc.2 ++ [WlAction.readPayload offer mime]
          if buf.isEmpty then (acc.1, acts)
          else (mimeMapInsert acc.1 mime buf, acts)
    let folded := mime_types.foldl step ([], [])
    let mime_map := folded.1
    let acts := folded.2
    if mime_map.isEmpty then (s, acts)
    else
      match s.add_clipboard_item mime_map now with
      | (s1, some new_id) =>
          if !s1.monitor_only && !s1.suppress_next_selection_read then
            let r := s1.set_clipboard_by_id new_id freshSource
            (r.1, acts ++ r.2.2)
          else (s1, acts)
      | (s1, none) => (s1, acts)

/-- The `Selection` arm of the device dispatch (lines 137–161): a `Some` offer
that is tracked is either recorded-and-destroyed without reading (suppression
window) or, when it is not already the current offer, read via
`process_all_data_formats`, after which the offer table is cleared wholesale
and the offer destroyed; an untracked offer does nothing; `None` clears
`current_data_offer`. -/
def handleSelection (fetch : ObjectId → String → Option ByteBuf) (now : Nat)
    (freshSource : ObjectId) (s : BackendState) (id : Option ObjectId) :
    BackendState × List WlAction :=
  match id with
  | some offer_key =>
      let already_current := s.current_data_offer == some offer_key
      match offersGet s.mime_type_offers offer_key with
      | some mime_list =>
          if s.suppress_next_selection_read then
            ({ s with current_data_offer := some offer_key }, [.destroyOffer offer_key])
          else if !already_current then
            let s1 := { s with current_data_offer := some offer_key }
            let r := process_all_data_formats fetch now freshSource offer_key mime_list s1
            ({ r.1 with mime_type_offers := [] }, r.2 ++ [.destroyOffer offer_key])
          else (s, [])
      | none => (s, [])
  | none => ({ s with current_data_offer := none }, [])

/-- The `Cancelled` arm of the source dispatch (lines 240–251): if the
cancelled source is the tracked current source, clear `current_source_object`
and re-enable selection reads; either way, destroy the cancelled source
object. (`current_source_entry_id` is not touched by this arm.) -/
def handleSourceCancelled (s : BackendState) (src : ObjectId) : BackendState × List WlAction :=
  if s.current_source_object == some src then
    ({ s with suppress_next_selection_read := false, current_source_object := none },
      [.destroySource src])
  else (s, [.destroySource src])

/-! ### Helper lemmas about `add_clipboard_item` -/

/-- The item `add_clipboard_item` stores for a payload `m` at id `id` and
time `now`. -/
def itemOf (id : Nat) (m : MimeMap) (now : Nat) : ClipboardItem where
  item_id := id
  content_preview := (previewAndType m).1
  content_type := (previewAndType m).2
  timestamp := now
  mime_data := m

theorem add_clipboard_item_eq (s : BackendState) (m : MimeMap) (now : Nat)
    (h : m.isEmpty = false) :
    s.add_clipboard_item m now =
      ({ s with history := (itemOf s.id_for_next_entry m now :: s.history).take 100
                id_for_next_entry := s.id_for_next_entry + 1 },
        some s.id_for_next_entry) := by
  have hlist : ∀ (l : List ClipboardItem),
      (if l.length > 100 then l.take 100 else l) = l.take 100 := by
    intro l
    split
    · rfl
    · exact (List.take_of_length_le (by omega)).symm
  simp only [BackendState.add_clipboard_item, h, Bool.false_eq_true, if_false, itemOf]
  rw [hlist]

theorem add_clipboard_item_snd (s : BackendState) (m : MimeMap) (now : Nat)
    (h : m.isEmpty = false) :
    (s.add_clipboard_item m now).2 = some s.id_for_next_entry := by
  rw [add_clipboard_item_eq s m now h]

theorem add_clipboard_item_fst_id (s : BackendState) (m : MimeMap) (now : Nat)
    (h : m.isEmpty = false) :
    ((s.add_clipboard_item m now).1).id_for_next_entry = s.id_for_next_entry + 1 := by
  rw [add_clipboard_item_eq s m now h]

theorem add_clipboard_item_fst_history (s : BackendState) (m : MimeMap) (now : Nat)
    (h : m.isEmpty = false) :
    ((s.add_clipboard_item m now).1).history =
      (itemOf s.id_for_next_entry m now :: s.history).take 100 := by
  rw [add_clipboard_item_eq s m now h]

theorem add_clipboard_item_some (s : BackendState) (m : MimeMap) (now : Nat) (i : Nat)
    (h : (s.add_clipboard_item m now).2 = some i) :
    i = s.id_for_next_entry ∧ m.isEmpty = false := by
  by_cases hm : m.isEmpty = true
  · simp [BackendState.add_clipboard_item, hm] at h
  · have hm' : m.isEmpty = false := Bool.eq_false_iff.mpr hm
    rw [add_clipboard_item_eq s m now hm'] at h
    simp only [Option.some.injEq] at h
    exact ⟨h.symm, hm'⟩

theorem mimeMapGet_some_nonempty {m : MimeMap} {k : String} {v : ByteBuf}
    (h : mimeMapGet m k = some v) : m.isEmpty = false := by
  cases m with
  | nil => simp [mimeMapGet] at h
  | cons p ps => rfl

/-! ### Claim theorems -/

/-- C7: `type_from_preview` maps `"https://example.com"` to `Url`,
`"impl Foo for Bar {}"` to `Code`, `"/etc/passwd"` to `File`, `"Xk7!mP9q"`
to `Password`, and `"just some words"` to `Text`. -/
theorem type_from_preview_examples :
    ClipboardContentType.type_from_preview "https://example.com" = .Url ∧
    ClipboardContentType.type_from_preview "impl Foo for Bar \x7b\x7d" = .Code ∧
    ClipboardContentType.type_from_preview "/etc/passwd" = .File ∧
    ClipboardContentType.type_from_preview "Xk7!mP9q" = .Password ∧
    ClipboardContentType.type_from_preview "just some words" = .Text := by
  refine ⟨by decide, by decide, by decide, by decide, by decide⟩

/-- C6: `set_clipboard_by_id` with an id absent from the history returns the
error `"No clipboard item found with ID: <id>"` (which contains the id), makes
no Wayland calls, and leaves the whole state — in particular the ownership
record — unchanged; on the empty history with id 7 the message is exactly
`"No clipboard item found with ID: 7"`. -/
theorem set_clipboard_by_id_missing_id :
    (∀ (s : BackendState) (id : Nat) (src : ObjectId), s.get_item_by_id id = none →
      s.set_clipboard_by_id id src =
        (s, .error ("No clipboard item found with ID: " ++ toString id), []))
    ∧ BackendState.new.set_clipboard_by_id 7 0 =
        (BackendState.new, .error "No clipboard item found with ID: 7", []) := by
  constructor
  · intro s id src h
    simp [BackendState.set_clipboard_by_id, h]
  · rfl

/-- Witness for C6: the missing-id branch at the concrete empty history and
id 7. -/
theorem set_clipboard_by_id_missing_id_witness :
    BackendState.new.set_clipboard_by_id 7 3 =
      (BackendState.new, .error ("No clipboard item found with ID: " ++ toString 7), []) :=
  set_clipboard_by_id_missing_id.1 BackendState.new 7 3 rfl

/-- Counterexample for C5: a payload whose only entry is under the image MIME
type `image/jpeg` is stored with content type `Text` (the placeholder preview
`"<image/jpeg 3 bytes>"` classified as text), not `Image` — the code only
special-cases `image/png`. -/
theorem add_clipboard_item_image_counterexample :
    ((BackendState.new.add_clipboard_item [("image/jpeg", [1, 2, 3])] 0).1).history.map
        ClipboardItem.content_type = [ClipboardContentType.Text] ∧
    ((BackendState.new.add_clipboard_item [("image/jpeg", [1, 2, 3])] 0).1).history.map
        ClipboardItem.content_preview = ["<image/jpeg 3 bytes>"] ∧
    ClipboardContentType.Text ≠ ClipboardContentType.Image := by
  refine ⟨by decide, by decide, by decide⟩

/-- C5 (amended): for every payload containing the `image/png` MIME type,
`add_clipboard_item` stores (at the front of the history) an item with
content type `Image` and preview `"<image/png N bytes>"` where `N` is the png
entry's byte length. -/
theorem add_clipboard_item_image_png (s : BackendState) (m : MimeMap) (now : Nat)
    (png : ByteBuf) (h : mimeMapGet m "image/png" = some png) :
    ∃ rest, ((s.add_clipboard_item m now).1).history =
      { item_id := s.id_for_next_entry
        content_preview := "<image/png " ++ toString png.length ++ " bytes>"
        content_type := ClipboardContentType.Image
        timestamp := now
        mime_data := m } :: rest := by
  have hne : m.isEmpty = false := mimeMapGet_some_nonempty h
  rw [add_clipboard_item_eq s m now hne]
  refine ⟨s.history.take 99, ?_⟩
  have hpt : previewAndType m =
      ("<image/png " ++ toString png.length ++ " bytes>", ClipboardContentType.Image) := by
    simp [previewAndType, h]
  simp only [itemOf, hpt]
  rw [show (100 : Nat) = 99 + 1 from rfl, List.take_succ_cons]

/-- Witness for C5 (amended): a concrete png payload is stored as an `Image`
item with the length-encoding preview. -/
theorem add_clipboard_item_image_png_witness :
    ∃ rest, ((BackendState.new.add_clipboard_item [("image/png", [1, 2, 3, 4])] 5).1).history =
      { item_id := 1
        content_preview := "<image/png " ++ toString (4 : Nat) ++ " bytes>"
        content_type := ClipboardContentType.Image
        timestamp := 5
        mime_data := [("image/png", [1, 2, 3, 4])] } :: rest :=
  add_clipboard_item_image_png BackendState.new [("image/png", [1, 2, 3, 4])] 5 [1, 2, 3, 4] rfl

/-- A concrete state in which the daemon owns the selection: source object 5,
published item 3, suppression active. -/
def cancelDemoState : BackendState :=
  { BackendState.new with
      current_source_object := some 5
      current_source_entry_id := some 3
      suppress_next_selection_read := true }

/-- Counterexample for C1: after a `Cancelled` event for the tracked current
source, `current_source_entry_id` is still `some 3` — the handler does not
clear it, contrary to the claim that it clears `current_source_item_id`. -/
theorem handleSourceCancelled_entry_id_counterexample :
    ((handleSourceCancelled cancelDemoState 5).1).current_source_object = none ∧
    ((handleSourceCancelled cancelDemoState 5).1).suppress_next_selection_read = false ∧
    ((handleSourceCancelled cancelDemoState 5).1).current_source_entry_id = some 3 ∧
    some 3 ≠ (none : Option Nat) := by
  refine ⟨by decide, by decide, by decide, by decide⟩

/-- C1 (amended): a `Cancelled` event for the tracked current source clears
`current_source_object` and sets `suppress_next_selection_read` to `false`
while leaving every other field — including `current_source_entry_id` —
unchanged; a `Cancelled` event for any other source leaves the state entirely
unchanged; in both cases the cancelled source object is destroyed
unconditionally. -/
theorem handleSourceCancelled_spec (s : BackendState) (src : ObjectId) :
    (s.current_source_object = some src →
      (handleSourceCancelled s src).1 =
        { s with current_source_object := none, suppress_next_selection_read := false })
    ∧ (s.current_source_object ≠ some src → (handleSourceCancelled s src).1 = s)
    ∧ (handleSourceCancelled s src).2 = [.destroySource src] := by
  by_cases h : s.current_source_object = some src
  · refine ⟨fun _ => ?_, fun hne => absurd h hne, ?_⟩ <;> simp [handleSourceCancelled, h]
  · refine ⟨fun heq => absurd heq h, fun _ => ?_, ?_⟩ <;> simp [handleSourceCancelled, h]

/-- Witness for C1 (amended): both branches at concrete states — a matching
cancellation clears ownership and suppression, a foreign one (source 7) is a
no-op on the state. -/
theorem handleSourceCancelled_spec_witness :
    (handleSourceCancelled cancelDemoState 5).1 =
      { cancelDemoState with
          current_source_object := none
          suppress_next_selection_read := false } ∧
    (handleSourceCancelled cancelDemoState 7).1 = cancelDemoState :=
  ⟨(handleSourceCancelled_spec cancelDemoState 5).1 rfl,
   (handleSourceCancelled_spec cancelDemoState 7).2.1 (by decide)⟩

/-- A concrete state inside the suppression window with one tracked offer
(id 9) announcing one MIME type. -/
def suppressDemoState : BackendState :=
  { BackendState.new with
      mime_type_offers := [(9, ["text/plain;charset=utf-8"])]
      suppress_next_selection_read := true }

/-- C2: while `suppress_next_selection_read` is true, a `Selection` event for
any offer present in the tracking table — whatever its MIME list — only
records the offer id in `current_data_offer` and destroys the offer: no
payload read action is issued and every other field, the history included, is
unchanged. The statement quantifies over all tracked offers, so the
suppression covers any selection in the window, not just the daemon's own
echo. -/
theorem handleSelection_suppressed (fetch : ObjectId → String → Option ByteBuf) (now : Nat)
    (freshSource : ObjectId) (s : BackendState) (offer : ObjectId) (mimes : List String)
    (htab : offersGet s.mime_type_offers offer = some mimes)
    (hsup : s.suppress_next_selection_read = true) :
    handleSelection fetch now freshSource s (some offer) =
      ({ s with current_data_offer := some offer }, [.destroyOffer offer]) := by
  simp [handleSelection, htab, hsup]

/-- Witness for C2: the suppressed branch at a concrete state and offer 9. -/
theorem handleSelection_suppressed_witness :
    handleSelection (fun _ _ => none) 0 0 suppressDemoState (some 9) =
      ({ suppressDemoState with current_data_offer := some 9 }, [.destroyOffer 9]) :=
  handleSelection_suppressed (fun _ _ => none) 0 0 suppressDemoState 9
    ["text/plain;charset=utf-8"] (by decide) rfl

/-- C10: a `Selection` event naming an offer with no entry in the tracking
table leaves the entire state unchanged and performs no Wayland call — no
payload read, no history insertion, no `current_data_offer` update — whatever
the value of the suppression flag (the state is universally quantified). -/
theorem handleSelection_untracked_noop (fetch : ObjectId → String → Option ByteBuf) (now : Nat)
    (freshSource : ObjectId) (s : BackendState) (offer : ObjectId)
    (h : offersGet s.mime_type_offers offer = none) :
    handleSelection fetch now freshSource s (some offer) = (s, []) := by
  simp [handleSelection, h]

/-- Witness for C10: an untracked offer (id 3) at a concrete state whose
suppression flag is true. -/
theorem handleSelection_untracked_noop_witness :
    handleSelection (fun _ _ => none) 0 0 suppressDemoState (some 3) =
      (suppressDemoState, []) :=
  handleSelection_untracked_noop (fun _ _ => none) 0 0 suppressDemoState 3 (by decide)

/-- A concrete state holding one history item, with the id counter at 2. -/
def clearDemoState : BackendState :=
  (BackendState.new.add_clipboard_item [("a", [1])] 0).1

/-- C8: `clear_history` empties the history (`get_history` then returns the
empty sequence) and does not reset the id counter, so the id assigned by the
next non-empty insert continues from its prior value. -/
theorem clear_history_spec (s : BackendState) :
    (s.clear_history).get_history = [] ∧
    (s.clear_history).id_for_next_entry = s.id_for_next_entry ∧
    (∀ (m : MimeMap) (now : Nat), m.isEmpty = false →
      ((s.clear_history).add_clipboard_item m now).2 = some s.id_for_next_entry) := by
  refine ⟨rfl, rfl, ?_⟩
  intro m now h
  rw [add_clipboard_item_snd _ m now h]
  rfl

/-- Witness for C8: after one insert (counter at 2) and a clear, the next
insert is assigned id 2. -/
theorem clear_history_spec_witness :
    (clearDemoState.clear_history).get_history = [] ∧
    ((clearDemoState.clear_history).add_clipboard_item [("b", [2])] 0).2 =
      some clearDemoState.id_for_next_entry :=
  ⟨(clear_history_spec clearDemoState).1,
   (clear_history_spec clearDemoState).2.2 [("b", [2])] 0 rfl⟩

/-- C3: for every payload map with at least one entry, `add_clipboard_item`
returns `some` of the current counter value and bumps the counter; for an
empty payload map it returns `none` and leaves the state unchanged; the ids of
two successive successful insertions are strictly increasing; and under the
invariant that all stored ids are below the counter, a freshly assigned id is
never one already in the history (ids are never reused), the invariant being
preserved. -/
theorem add_clipboard_item_id_spec (s : BackendState) (m : MimeMap) (now : Nat) :
    (m.isEmpty = false →
      (s.add_clipboard_item m now).2 = some s.id_for_next_entry ∧
      ((s.add_clipboard_item m now).1).id_for_next_entry = s.id_for_next_entry + 1)
    ∧ (m.isEmpty = true → s.add_clipboard_item m now = (s, none))
    ∧ (∀ (m2 : MimeMap) (now2 : Nat) (i1 i2 : Nat),
        (s.add_clipboard_item m now).2 = some i1 →
        (((s.add_clipboard_item m now).1).add_clipboard_item m2 now2).2 = some i2 →
        i1 < i2)
    ∧ (∀ i, (s.add_clipboard_item m now).2 = some i →
        (∀ it ∈ s.history, it.item_id < s.id_for_next_entry) →
        (∀ it ∈ s.history, it.item_id ≠ i) ∧
        (∀ it ∈ ((s.add_clipboard_item m now).1).history,
          it.item_id < ((s.add_clipboard_item m now).1).id_for_next_entry)) := by
  refine ⟨?_, ?_, ?_, ?_⟩
  · intro h
    rw [add_clipboard_item_eq s m now h]
    exact ⟨rfl, rfl⟩
  · intro h
    simp [BackendState.add_clipboard_item, h]
  · intro m2 now2 i1 i2 h1 h2
    obtain ⟨he1, hm1⟩ := add_clipboard_item_some s m now i1 h1
    obtain ⟨he2, _⟩ := add_clipboard_item_some _ m2 now2 i2 h2
    rw [add_clipboard_item_fst_id s m now hm1] at he2
    omega
  · intro i h hinv
    obtain ⟨he, hm⟩ := add_clipboard_item_some s m now i h
    refine ⟨fun it hit => by have := hinv it hit; omega, ?_⟩
    intro it hit
    rw [add_clipboard_item_fst_history s m now hm] at hit
    rw [add_clipboard_item_fst_id s m now hm]
    have hmem := List.mem_of_mem_take hit
    rcases List.mem_cons.mp hmem with hhd | htl
    · rw [hhd]; simp [itemOf]
    · have := hinv it htl; omega

/-- Witness for C3: concrete insertions into the empty store — the first
non-empty insert gets id 1, the second id 2, the empty insert is a no-op. -/
theorem add_clipboard_item_id_spec_witness :
    (BackendState.new.add_clipboard_item [("a", [1])] 0).2 = some 1 ∧
    BackendState.new.add_clipboard_item [] 0 = (BackendState.new, none) ∧
    (1 : Nat) < 2 := by
  have h := add_clipboard_item_id_spec BackendState.new [("a", [1])] 0
  refine ⟨(h.1 rfl).1, ?_, ?_⟩
  · exact (add_clipboard_item_id_spec BackendState.new [] 0).2.1 rfl
  · exact h.2.2.1 [("b", [2])] 0 1 2 (by decide) (by decide)

/-! ### Repeated insertion (for the capacity/eviction property) -/

/-- Fold `add_clipboard_item` over a list of (payload, timestamp) pairs. -/
def insertMany (s : BackendState) (ps : List (MimeMap × Nat)) : BackendState :=
  ps.foldl (fun st p => (st.add_clipboard_item p.1 p.2).1) s

/-- The items the successive insertions build, in insertion order, with ids
starting at `n`. -/
def itemsFrom : Nat → List (MimeMap × Nat) → List ClipboardItem
  | _, [] => []
  | n, p :: ps => itemOf n p.1 p.2 :: itemsFrom (n + 1) ps

theorem itemsFrom_length (n : Nat) (ps : List (MimeMap × Nat)) :
    (itemsFrom n ps).length = ps.length := by
  induction ps generalizing n with
  | nil => rfl
  | cons p ps ih => simp [itemsFrom, ih]

theorem itemsFrom_mem_le (n : Nat) (ps : List (MimeMap × Nat)) (it : ClipboardItem)
    (h : it ∈ itemsFrom n ps) : n ≤ it.item_id := by
  induction ps generalizing n with
  | nil => simp [itemsFrom] at h
  | cons p ps ih =>
    simp only [itemsFrom] at h
    rcases List.mem_cons.mp h with hhd | htl
    · rw [hhd]; simp [itemOf]
    · have := ih (n + 1) htl; omega

theorem take_append_take {α : Type _} (A l : List α) (n : Nat) :
    (A ++ l.take n).take n = (A ++ l).take n := by
  rw [List.take_append_eq_append_take, List.take_append_eq_append_take, List.take_take]
  have hmin : (n - A.length) ⊓ n = n - A.length := by omega
  rw [hmin]

theorem insertMany_closed_form (ps : List (MimeMap × Nat)) :
    ∀ (s : BackendState), (∀ p ∈ ps, (p.1).isEmpty = false) → s.history.length ≤ 100 →
      (insertMany s ps).history =
        ((itemsFrom s.id_for_next_entry ps).reverse ++ s.history).take 100 ∧
      (insertMany s ps).id_for_next_entry = s.id_for_next_entry + ps.length := by
  induction ps with
  | nil =>
    intro s _ hl
    exact ⟨by simp [insertMany, itemsFrom, List.take_of_length_le hl], rfl⟩
  | cons p ps ih =>
    intro s h hl
    have hp : (p.1).isEmpty = false := h p (List.mem_cons_self p ps)
    have hrest : ∀ q ∈ ps, (q.1).isEmpty = false := fun q hq => h q (List.mem_cons_of_mem p hq)
    have hstep : insertMany s (p :: ps) = insertMany (s.add_clipboard_item p.1 p.2).1 ps := rfl
    have hid := add_clipboard_item_fst_id s p.1 p.2 hp
    have hhist := add_clipboard_item_fst_history s p.1 p.2 hp
    have hlen' : ((s.add_clipboard_item p.1 p.2).1).history.length ≤ 100 := by
      rw [hhist]
      exact List.length_take_le 100 (itemOf s.id_for_next_entry p.1 p.2 :: s.history)
    obtain ⟨h1, h2⟩ := ih (s.add_clipboard_item p.1 p.2).1 hrest hlen'
    rw [hstep]
    constructor
    · rw [h1, hhist, hid, take_append_take]
      simp [itemsFrom, List.append_assoc]
    · rw [h2, hid, List.length_cons]
      omega

/-- C4: a history of at most 100 items stays at most 100 items across any
insertion; and after inserting 101 non-empty payloads into the empty store,
the history is exactly the items of the last 100 insertions most-recent-first
(ids 2..101), the first-inserted item (id 1) is absent, and `get_history`
returns those items' previews in reverse order of insertion. -/
theorem history_capacity_spec :
    (∀ (s : BackendState) (m : MimeMap) (now : Nat),
      s.history.length ≤ 100 → ((s.add_clipboard_item m now).1).history.length ≤ 100)
    ∧ (∀ ps : List (MimeMap × Nat), ps.length = 101 →
        (∀ p ∈ ps, (p.1).isEmpty = false) →
        (insertMany BackendState.new ps).history = (itemsFrom 2 (ps.drop 1)).reverse
        ∧ (insertMany BackendState.new ps).history.length = 100
        ∧ (∀ it ∈ (insertMany BackendState.new ps).history, it.item_id ≠ 1)
        ∧ (insertMany BackendState.new ps).get_history =
            ((itemsFrom 2 (ps.drop 1)).map ClipboardItemPreview.ofItem).reverse) := by
  constructor
  · intro s m now hl
    by_cases hm : m.isEmpty = true
    · have hnoop : s.add_clipboard_item m now = (s, none) := by
        simp [BackendState.add_clipboard_item, hm]
      rw [hnoop]
      exact hl
    · have hm' : m.isEmpty = false := Bool.eq_false_iff.mpr hm
      rw [add_clipboard_item_fst_history s m now hm']
      exact List.length_take_le 100 (itemOf s.id_for_next_entry m now :: s.history)
  · intro ps hlen hne
    cases ps with
    | nil => simp at hlen
    | cons p ps' =>
      have hlen' : ps'.length = 100 := by simpa using hlen
      obtain ⟨h1, _⟩ := insertMany_closed_form (p :: ps') BackendState.new hne (by decide)
      have hrevlen : ((itemsFrom 2 ps').reverse).length = 100 := by
        rw [List.length_reverse, itemsFrom_length]
        exact hlen'
      have hhist : (insertMany BackendState.new (p :: ps')).history =
          (itemsFrom 2 ps').reverse := by
        rw [h1]
        show ((itemsFrom 1 (p :: ps')).reverse ++ []).take 100 = _
        rw [List.append_nil,
          show itemsFrom 1 (p :: ps') = itemOf 1 p.1 p.2 :: itemsFrom 2 ps' from rfl,
          List.reverse_cons]
        exact List.take_left' hrevlen
      refine ⟨hhist, ?_, ?_, ?_⟩
      · rw [hhist]
        exact hrevlen
      · intro it hit
        rw [hhist] at hit
        have := itemsFrom_mem_le 2 ps' it (List.mem_reverse.mp hit)
        omega
      · show (insertMany BackendState.new (p :: ps')).history.map ClipboardItemPreview.ofItem = _
        rw [hhist, List.map_reverse]
        rfl

/-- A batch of 101 identical non-empty payloads. -/
def demoPayloads : List (MimeMap × Nat) := List.replicate 101 ([("a", [1])], 0)

/-- Witness for C4: the capacity bound at a concrete insertion, and the
101-payload batch leaving exactly 100 items. -/
theorem history_capacity_spec_witness :
    ((BackendState.new.add_clipboard_item [("a", [1])] 0).1).history.length ≤ 100 ∧
    (insertMany BackendState.new demoPayloads).history.length = 100 :=
  ⟨history_capacity_spec.1 BackendState.new [("a", [1])] 0 (by decide),
   (history_capacity_spec.2 demoPayloads (by decide)
      (fun p hp => by
        have hp' : p ∈ List.replicate 101 (([("a", [1])], 0) : MimeMap × Nat) := hp
        rw [List.eq_of_mem_replicate hp']
        rfl)).2.1⟩

/-! ### IPC message enums and their serde JSON encoding
(`src/shared/data_structures.rs` lines 45–67)

`FrontendMessage` and `BackendMessage` derive serde's `Serialize`/
`Deserialize` with the default externally-tagged representation: a unit
variant serializes as its name (a JSON string), a struct variant as a
one-entry object mapping the variant name to an object of its named fields in
declaration order. The encoding is modelled at the level of JSON values. -/

/-- JSON values (the fragment these messages use: numbers, strings, arrays
and ordered objects). -/
inductive Json where
  | num (n : Nat)
  | str (s : String)
  | arr (xs : List Json)
  | obj (fields : List (String × Json))

/-- Rust enum `FrontendMessage` (client→server requests). -/
inductive FrontendMessage where
  | GetHistory
  | SetClipboardById (id : Nat)
  | ClearHistory
deriving Repr, DecidableEq

/-- Rust enum `BackendMessage` (server→client responses and pushes). -/
inductive BackendMessage where
  | History (items : List ClipboardItemPreview)
  | NewItem (item : ClipboardItemPreview)
  | ClipboardSet
  | HistoryCleared
  | Error (message : String)
deriving Repr, DecidableEq

/-- Serde encoding of `ClipboardContentType` (all-unit enum → its name as a
JSON string, per `as_str`'s capitalized labels). -/
def ClipboardContentType.toJson : ClipboardContentType → Json
  | .Text => .str "Text"
  | .Url => .str "Url"
  | .Code => .str "Code"
  | .Password => .str "Password"
  | .File => .str "File"
  | .Image => .str "Image"
  | .Other => .str "Other"

/-- Serde decoding of `ClipboardContentType`. -/
def ClipboardContentType.fromJson? : Json → Option ClipboardContentType
  | .str "Text" => some .Text
  | .str "Url" => some .Url
  | .str "Code" => some .Code
  | .str "Password" => some .Password
  | .str "File" => some .File
  | .str "Image" => some .Image
  | .str "Other" => some .Other
  | _ => none

/-- Serde encoding of `ClipboardItemPreview` (object with the struct's fields
in declaration order). -/
def ClipboardItemPreview.toJson (p : ClipboardItemPreview) : Json :=
  .obj [("item_id", .num p.item_id),
        ("content_preview", .str p.content_preview),
        ("content_type", p.content_type.toJson),
        ("timestamp", .num p.timestamp)]

/-- Serde decoding of `ClipboardItemPreview`. -/
def ClipboardItemPreview.fromJson? : Json → Option ClipboardItemPreview
  | .obj [("item_id", .num i), ("content_preview", .str cp),
          ("content_type", ct), ("timestamp", .num ts)] =>
      match ClipboardContentType.fromJson? ct with
      | some c => some { item_id := i, content_preview := cp, content_type := c, timestamp := ts }
      | none => none
  | _ => none

/-- Serde encoding of `FrontendMessage` (externally tagged). -/
def FrontendMessage.toJson : FrontendMessage → Json
  | .GetHistory => .str "GetHistory"
  | .SetClipboardById id => .obj [("SetClipboardById", .obj [("id", .num id)])]
  | .ClearHistory => .str "ClearHistory"

/-- Serde decoding of `FrontendMessage`. -/
def FrontendMessage.fromJson? : Json → Option FrontendMessage
  | .str "GetHistory" => some .GetHistory
  | .str "ClearHistory" => some .ClearHistory
  | .obj [("SetClipboardById", .obj [("id", .num id)])] => some (.SetClipboardById id)
  | _ => none

/-- Decode a JSON array's elements as previews (serde's `Vec` decoding). -/
def decodePreviews : List Json → Option (List ClipboardItemPreview)
  | [] => some []
  | j :: js =>
      match ClipboardItemPreview.fromJson? j, decodePreviews js with
      | some p, some ps => some (p :: ps)
      | _, _ => none

/-- Serde encoding of `BackendMessage` (externally tagged). -/
def BackendMessage.toJson : BackendMessage → Json
  | .History items => .obj [("History", .obj [("items", .arr (items.map ClipboardItemPreview.toJson))])]
  | .NewItem item => .obj [("NewItem", .obj [("item", item.toJson)])]
  | .ClipboardSet => .str "ClipboardSet"
  | .HistoryCleared => .str "HistoryCleared"
  | .Error message => .obj [("Error", .obj [("message", .str message)])]

/-- Serde decoding of `BackendMessage`. -/
def BackendMessage.fromJson? : Json → Option BackendMessage
  | .str "ClipboardSet" => some .ClipboardSet
  | .str "HistoryCleared" => some .HistoryCleared
  | .obj [("History", .obj [("items", .arr xs)])] =>
      match decodePreviews xs with
      | some items => some (.History items)
      | none => none
  | .obj [("NewItem", .obj [("item", j)])] =>
      match ClipboardItemPreview.fromJson? j with
      | some item => some (.NewItem item)
      | none => none
  | .obj [("Error", .obj [("message", .str message)])] => some (.Error message)
  | _ => none

theorem contentType_roundtrip (c : ClipboardContentType) :
    ClipboardContentType.fromJson? c.toJson = some c := by
  cases c <;> rfl

theorem preview_roundtrip (p : ClipboardItemPreview) :
    ClipboardItemPreview.fromJson? p.toJson = some p := by
  cases p with
  | mk i cp ct ts =>
      simp [ClipboardItemPreview.toJson, ClipboardItemPreview.fromJson?, contentType_roundtrip]

theorem decodePreviews_roundtrip (items : List ClipboardItemPreview) :
    decodePreviews (items.map ClipboardItemPreview.toJson) = some items := by
  induction items with
  | nil => rfl
  | cons p ps ih => simp [decodePreviews, preview_roundtrip, ih]

/-- C9: every request variant (`GetHistory`, `SetClipboardById{id}`,
`ClearHistory`) and every response variant (`History`, `NewItem`,
`ClipboardSet`, `HistoryCleared`, `Error`) serializes to JSON and deserializes
back to an equal value. -/
theorem messages_json_roundtrip :
    (∀ m : FrontendMessage, FrontendMessage.fromJson? m.toJson = some m)
    ∧ (∀ m : BackendMessage, BackendMessage.fromJson? m.toJson = some m) := by
  constructor
  · intro m
    cases m <;> rfl
  · intro m
    cases m with
    | History items =>
        simp [BackendMessage.toJson, BackendMessage.fromJson?, decodePreviews_roundtrip]
    | NewItem item =>
        simp [BackendMessage.toJson, BackendMessage.fromJson?, preview_roundtrip]
    | ClipboardSet => rfl
    | HistoryCleared => rfl
    | Error message => rfl

end CursorClip
